import Mathlib

/-!
Shallow embedding of the texture-loading core of `web-texture-tool`
(JavaScript), covering:

* the KTX2 transcode worker's per-level dimension chain and packed
  mip-level output table (`src/ktx/ktx-worker.js`, and the newer copy of
  `transcodeEtc1s` bundled next to `worker-loader.js`);
* the default mip-level dimensions of `WorkerTextureImageData.setMipLevel`
  (`src/workers/worker-util.js`);
* the Basis/KTX2 transcode-target format selection (`parseFile`);
* the worker-loader request/response coordinator (`worker-loader.js`);
* the base tool lifecycle (`web-texture-tool-base.js`);
* the WebGL upload client (`webgl-texture-tool.js`);
* the WebGPU upload client (the staged-copy variant, with its transfer
  layout planning in `textureFromLevelData`).

JavaScript numbers are modelled as `Nat` (with explicit `Int` plus
two's-complement conversion where the source relies on 32-bit operators),
typed arrays as `List Nat`, thrown exceptions as `Except String`, and the
`null`-device early-outs as `Option`.
-/

/-- JS `Math.ceil(a / b)` for non-negative integer `a`, positive `b`. -/
def jsCeilDiv (a b : Nat) : Nat := (a + b - 1) / b

/-- JS `ToInt32` on a non-negative number: reduce mod 2^32 into [-2^31, 2^31). -/
def toInt32 (n : Nat) : Int :=
  if n % 2 ^ 32 < 2 ^ 31 then ((n % 2 ^ 32 : Nat) : Int)
  else ((n % 2 ^ 32 : Nat) : Int) - 2 ^ 32

/-- JS `x >> k`: arithmetic shift right; the shift count is taken mod 32. -/
def jsShr (x : Int) (k : Nat) : Int := Int.fdiv x (2 ^ (k % 32))

/-- `TypedArray.prototype.set`: overwrite `buf` starting at `off` with `data`. -/
def writeBytes (buf : List Nat) (off : Nat) (data : List Nat) : List Nat :=
  buf.take off ++ data ++ buf.drop (off + data.length)

/-- Write a list of byte chunks at consecutive offsets starting at `off`
(each chunk lands right after the previous one). -/
def writeSeq : List Nat → Nat → List (List Nat) → List Nat
  | buf, _, [] => buf
  | buf, off, d :: ds => writeSeq (writeBytes buf off d) (off + d.length) ds

/-! ## KTX2 transcoder dimension chain (`ktx-worker.js`, `transcodeEtc1s`)

The per-level loop ends each iteration with
`levelWidth = Math.max(1, Math.ceil(levelWidth / 2))` (same for height and
depth), so level `n`'s recorded dimension is the `n`-fold iterate of that
step applied to the level-0 dimension. -/

/-- One step of the KTX worker's level-dimension update:
`Math.max(1, Math.ceil(d / 2))`. -/
def ktxLevelDimStep (d : Nat) : Nat := max 1 ((d + 1) / 2)

/-- Dimension recorded for mip level `n` by `transcodeEtc1s`, starting from
level-0 dimension `d0`. -/
def ktxLevelDim (d0 : Nat) : Nat → Nat
  | 0 => d0
  | n + 1 => ktxLevelDimStep (ktxLevelDim d0 n)

/-! ## `WorkerTextureImageData.setMipLevel` default dimensions
(`workers/worker-util.js`)

With no per-level override the recorded width is
`Math.max(1, options.width || this.textureData.width >> level)`, i.e. the
32-bit arithmetic shift of the texture's level-0 width, clamped to 1. -/

/-- Default dimension recorded by `setMipLevel` when `options` carries no
explicit width/height: `Math.max(1, dim >> level)` with JS 32-bit shift. -/
def workerDefaultLevelDim (dim level : Nat) : Int :=
  max 1 (jsShr (toInt32 dim) level)

theorem ktxLevelDimStep_eq (d : Nat) (hd : 1 ≤ d) :
    ktxLevelDimStep d = (d - 1) / 2 + 1 := by
  obtain ⟨m, rfl⟩ := Nat.exists_eq_add_of_le hd
  unfold ktxLevelDimStep
  have h2 : (1 + m + 1) / 2 = m / 2 + 1 := by omega
  rw [h2]
  simp [Nat.max_eq_right, Nat.succ_le_succ (Nat.zero_le _)]

theorem ktxLevelDim_ge_one (d0 : Nat) (hd : 1 ≤ d0) (n : Nat) :
    1 ≤ ktxLevelDim d0 n := by
  induction n with
  | zero => exact hd
  | succ n _ => exact le_max_left _ _

theorem ktxLevelDim_closed (d0 : Nat) (hd : 1 ≤ d0) (n : Nat) :
    ktxLevelDim d0 n = (d0 - 1) / 2 ^ n + 1 := by
  induction n with
  | zero => simpa using (Nat.succ_pred_eq_of_pos hd).symm
  | succ n ih =>
    have h1 : 1 ≤ ktxLevelDim d0 n := ktxLevelDim_ge_one d0 hd n
    rw [ktxLevelDim, ktxLevelDimStep_eq _ h1, ih]
    rw [Nat.add_sub_cancel, Nat.div_div_eq_div_mul, pow_succ]

theorem workerDefaultLevelDim_eq (dim level : Nat)
    (hdim : dim < 2 ^ 31) (hlevel : level < 32) :
    workerDefaultLevelDim dim level = ((max 1 (dim / 2 ^ level) : Nat) : Int) := by
  have hmod : dim % 2 ^ 32 = dim := Nat.mod_eq_of_lt (lt_trans hdim (by norm_num))
  have hto : toInt32 dim = (dim : Int) := by
    unfold toInt32
    rw [hmod, if_pos hdim]
  have hk : level % 32 = level := Nat.mod_eq_of_lt hlevel
  have hshr : jsShr (toInt32 dim) level = ((dim / 2 ^ level : Nat) : Int) := by
    unfold jsShr
    rw [hto, hk]
    have h2 : ((2 : Int) ^ level) = ((2 ^ level : Nat) : Int) := by push_cast; ring
    rw [h2, ← Int.ofNat_fdiv]
  unfold workerDefaultLevelDim
  rw [hshr, Nat.cast_max]
  simp

/-- C1: the claim as stated is false on the code. The KTX2 transcoder's
per-level dimension chain halves with `Math.ceil`, not floor: starting from
a level-0 width of 5, the recorded level-1 width is 3, while the claimed
halve-and-floor rule `max(1, floor(level0dim / 2^n))` gives 2. -/
theorem ktx_mip_chain_floor_rule_counterexample :
    ktxLevelDim 5 1 = 3 ∧ max 1 (5 / 2 ^ 1) = 2 := by decide

/-- C1 (amended): within one texture, the mip-level dimensions recorded by
the KTX2 transcoder for level `n` equal `max(1, ceil(level0dim / 2^n))`
(ceil-halving, which coincides with the floor rule only at even dimensions),
while the worker texture-data default level dimensions in
`WorkerTextureImageData.setMipLevel` do satisfy the halve-and-floor rule
`max(1, floor(level0dim / 2^n))` for level-0 dimensions below 2^31 and
level indices below 32 (the range of JS 32-bit shifts). -/
theorem mip_level_dims_amended (d0 n : Nat) (hd : 1 ≤ d0) :
    ktxLevelDim d0 n = max 1 ((d0 + 2 ^ n - 1) / 2 ^ n)
    ∧ (d0 < 2 ^ 31 → n < 32 →
        workerDefaultLevelDim d0 n = ((max 1 (d0 / 2 ^ n) : Nat) : Int)) := by
  constructor
  · have hceil : (d0 + 2 ^ n - 1) / 2 ^ n = (d0 - 1) / 2 ^ n + 1 := by
      have h1 : d0 + 2 ^ n - 1 = (d0 - 1) + 2 ^ n := by
        have := Nat.one_le_two_pow (n := n)
        omega
      rw [h1, Nat.add_div_right _ (Nat.pos_pow_of_pos n (by norm_num))]
    rw [ktxLevelDim_closed d0 hd n, hceil]
    exact (Nat.max_eq_right (Nat.succ_le_succ (Nat.zero_le _))).symm
  · intro h31 h32
    exact workerDefaultLevelDim_eq d0 n h31 h32

/-- Witness for `mip_level_dims_amended` at level-0 dimension 5, level 2:
the KTX chain gives `max(1, ceil(5/4)) = 2` and the worker default gives
`max(1, floor(5/4)) = 1`. -/
theorem mip_level_dims_amended_witness :
    ktxLevelDim 5 2 = max 1 ((5 + 2 ^ 2 - 1) / 2 ^ 2)
    ∧ (5 < 2 ^ 31 → 2 < 32 →
        workerDefaultLevelDim 5 2 = ((max 1 (5 / 2 ^ 2) : Nat) : Int)) :=
  mip_level_dims_amended 5 2 (by decide)

/-! ## Transcode-target format selection (`ktx-worker.js`, `parseFile`)

`parseFile` builds `supportedTranscodeFormats[key] =
supportedFormats.indexOf(WTT_FORMAT_MAP[key].format) > -1`, then walks the
alpha or opaque preference list and picks the first key for which the device
supports the format AND the external Basis transcoder reports
`isFormatSupported`. The transcoder gate lives in WASM outside this
repository, so it is a parameter `tsup` of the embedding. -/

/-- One entry of `WTT_FORMAT_MAP`. -/
structure WttFormatEntry where
  format : String
  uncompressed : Bool := false
deriving DecidableEq

/-- `WTT_FORMAT_MAP` from `ktx-worker.js`. -/
def WTT_FORMAT_MAP : String → Option WttFormatEntry
  | "BC1_RGB" => some { format := "bc1-rgb-unorm" }
  | "BC3_RGBA" => some { format := "bc3-rgba-unorm" }
  | "BC7_RGBA" => some { format := "bc7-rgba-unorm" }
  | "ETC1_RGB" => some { format := "etc1-rgb-unorm" }
  | "ETC2_RGBA" => some { format := "etc2-rgba8unorm" }
  | "ASTC_4x4_RGBA" => some { format := "astc-4x4-rgba-unorm" }
  | "PVRTC1_4_RGB" => some { format := "pvrtc1-4bpp-rgb-unorm" }
  | "PVRTC1_4_RGBA" => some { format := "pvrtc1-4bpp-rgba-unorm" }
  | "RGBA32" => some { format := "rgba8unorm", uncompressed := true }
  | "RGB565" => some { format := "rgb565unorm", uncompressed := true }
  | "RGBA4444" => some { format := "rgba4unorm", uncompressed := true }
  | _ => none

/-- Priority list used when the image has alpha. -/
def alphaFormatPreference : List String :=
  ["ETC2_RGBA", "BC7_RGBA", "BC3_RGBA", "ASTC_4x4_RGBA", "PVRTC1_4_RGBA", "RGBA32"]

/-- Priority list used for opaque images. -/
def opaqueFormatPreference : List String :=
  ["ETC1_RGB", "BC7_RGBA", "BC1_RGB", "ETC2_RGBA", "ASTC_4x4_RGBA",
   "PVRTC1_4_RGB", "RGB565", "RGBA32"]

/-- `supportedFormats[targetFormat] =
msg.data.supportedFormats.indexOf(wttFormat.format) > -1`. -/
def supportedTranscodeFormat (supportedFormats : List String) (key : String) : Bool :=
  match WTT_FORMAT_MAP key with
  | some e => supportedFormats.contains e.format
  | none => false

/-- The `for (const format of formats)` selection loop of `parseFile`;
`tsup` is the external `BasisTranscoder.isFormatSupported` gate. -/
def selectTargetFormat (supported : List String) (hasAlpha : Bool)
    (tsup : String → Bool) : Option String :=
  (if hasAlpha then alphaFormatPreference else opaqueFormatPreference).find?
    (fun k => supportedTranscodeFormat supported k && tsup k)

/-- `parseFile`'s outcome of format selection: the chosen key, or the
`'No supported transcode formats'` failure when no candidate matches. -/
def parseFileFormatSelection (supported : List String) (hasAlpha : Bool)
    (tsup : String → Bool) : Except String String :=
  match selectTargetFormat supported hasAlpha tsup with
  | some f => .ok f
  | none => .error "No supported transcode formats"

/-- C4: when the external transcoder supports every candidate, format
selection walks the fixed priority list for the given alpha flag and
returns the first entry whose mapped format the device supports (hence it
is a deterministic function of the supported set and alpha flag); in
particular supported = {etc2-rgba8unorm, rgba8unorm} with alpha yields
ETC2_RGBA, supported = {rgba8unorm} without alpha yields RGBA32, and an
empty supported set fails with "No supported transcode formats". -/
theorem transcode_format_selection_spec (tsup : String → Bool)
    (htsup : ∀ k, tsup k = true) :
    (∀ supported hasAlpha,
      parseFileFormatSelection supported hasAlpha tsup =
        match (if hasAlpha then alphaFormatPreference else opaqueFormatPreference).find?
            (fun k => supportedTranscodeFormat supported k) with
        | some k => .ok k
        | none => .error "No supported transcode formats")
    ∧ parseFileFormatSelection ["etc2-rgba8unorm", "rgba8unorm"] true tsup
        = .ok "ETC2_RGBA"
    ∧ parseFileFormatSelection ["rgba8unorm"] false tsup = .ok "RGBA32"
    ∧ parseFileFormatSelection [] true tsup = .error "No supported transcode formats"
    ∧ parseFileFormatSelection [] false tsup = .error "No supported transcode formats" := by
  have hsel : ∀ supported hasAlpha,
      selectTargetFormat supported hasAlpha tsup =
        (if hasAlpha then alphaFormatPreference else opaqueFormatPreference).find?
          (fun k => supportedTranscodeFormat supported k) := by
    intro supported hasAlpha
    unfold selectTargetFormat
    simp only [htsup, Bool.and_true]
  refine ⟨fun supported hasAlpha => ?_, ?_, ?_, ?_, ?_⟩
  · unfold parseFileFormatSelection
    rw [hsel]
  all_goals
    unfold parseFileFormatSelection
    rw [hsel]
    rfl

/-- Witness for `transcode_format_selection_spec` with the all-true
transcoder gate, at supported = {etc2-rgba8unorm, rgba8unorm}, alpha. -/
theorem transcode_format_selection_spec_witness :
    parseFileFormatSelection ["etc2-rgba8unorm", "rgba8unorm"] true
      (fun _ => true) = .ok "ETC2_RGBA" :=
  (transcode_format_selection_spec (fun _ => true) (fun _ => rfl)).2.1

/-! ## Packed mip-level output table (`ktx-worker.js`, `transcodeEtc1s`)

Per transcoded image the worker pushes
`{level, offset: totalTranscodeSize, size: imgData.byteLength, ...}` and
adds the size to the running total; afterwards it allocates
`new Uint8Array(totalTranscodeSize)` and does
`transcodeData.set(mipLevelData[i].imgData, mipLevel.offset)` for each
entry. We model the per-level transcoded byte arrays as `List Nat`s. -/

/-- One entry of the worker's `mipLevels` table: (level, offset, size). -/
structure KtxMipLevelEntry where
  level : Nat
  offset : Nat
  size : Nat
deriving DecidableEq

/-- The `mipLevels` table built by `transcodeEtc1s`: entry `i` records level
`lvl0 + i`, the running byte offset, and the level's transcoded size. -/
def ktxMipLevelTable : List (List Nat) → Nat → Nat → List KtxMipLevelEntry
  | [], _, _ => []
  | d :: ds, lvl, off =>
      { level := lvl, offset := off, size := d.length } ::
        ktxMipLevelTable ds (lvl + 1) (off + d.length)

/-- `totalTranscodeSize`: sum of all transcoded level sizes. -/
def totalTranscodeSize (datas : List (List Nat)) : Nat :=
  (datas.map List.length).sum

/-- The packed `transcodeData` buffer: a zero `Uint8Array` of length
`totalTranscodeSize` overwritten by `set(imgData, offset)` at each entry's
(running) offset. -/
def transcodeDataBuffer (datas : List (List Nat)) : List Nat :=
  writeSeq (List.replicate (totalTranscodeSize datas) 0) 0 datas

theorem length_writeBytes (buf data : List Nat) (off : Nat)
    (h : off + data.length ≤ buf.length) :
    (writeBytes buf off data).length = buf.length := by
  unfold writeBytes
  simp only [List.length_append, List.length_take, List.length_drop]
  omega

theorem take_writeBytes (buf data : List Nat) (off : Nat)
    (h : off + data.length ≤ buf.length) :
    (writeBytes buf off data).take (off + data.length) = buf.take off ++ data := by
  unfold writeBytes
  refine List.take_left' ?_
  simp only [List.length_append, List.length_take]
  omega

theorem drop_writeBytes (buf data : List Nat) (off k : Nat)
    (h : off + data.length ≤ buf.length) :
    (writeBytes buf off data).drop (off + data.length + k)
      = buf.drop (off + data.length + k) := by
  unfold writeBytes
  have hlen : (buf.take off ++ data).length = off + data.length := by
    simp only [List.length_append, List.length_take]
    omega
  calc ((buf.take off ++ data) ++ buf.drop (off + data.length)).drop (off + data.length + k)
      = (((buf.take off ++ data) ++ buf.drop (off + data.length)).drop
          (off + data.length)).drop k := by rw [List.drop_drop]
    _ = (buf.drop (off + data.length)).drop k := by rw [List.drop_left' hlen]
    _ = buf.drop (off + data.length + k) := by rw [List.drop_drop]

theorem writeSeq_spec (pieces : List (List Nat)) :
    ∀ (buf : List Nat) (off : Nat),
      off + (pieces.map List.length).sum ≤ buf.length →
      writeSeq buf off pieces
        = buf.take off ++ pieces.flatten ++ buf.drop (off + pieces.flatten.length) := by
  induction pieces with
  | nil =>
    intro buf off _
    simp [writeSeq, List.take_append_drop]
  | cons d ds ih =>
    intro buf off h
    have hsum : off + (d.length + (ds.map List.length).sum) ≤ buf.length := by
      simpa [List.map_cons, List.sum_cons] using h
    have hd : off + d.length ≤ buf.length := by omega
    have hB : (writeBytes buf off d).length = buf.length := length_writeBytes _ _ _ hd
    rw [writeSeq, ih _ _ (by omega)]
    rw [take_writeBytes _ _ _ hd]
    have hjoin : (d :: ds).flatten = d ++ ds.flatten := rfl
    rw [hjoin]
    have hlen2 : off + (d ++ ds.flatten).length = off + d.length + ds.flatten.length := by
      simp [List.length_append]
      omega
    rw [hlen2, drop_writeBytes _ _ _ _ hd]
    simp [List.append_assoc]

/-- The packed buffer is exactly the concatenation of the level byte arrays. -/
theorem transcodeDataBuffer_eq_flatten (datas : List (List Nat)) :
    transcodeDataBuffer datas = datas.flatten := by
  unfold transcodeDataBuffer
  rw [writeSeq_spec datas _ 0 (by simp [totalTranscodeSize])]
  simp [totalTranscodeSize, List.length_flatten]

/-- Byte offset of level `i` in the packed buffer: sum of the sizes of the
levels before it. -/
def packedOffset (datas : List (List Nat)) (i : Nat) : Nat :=
  ((datas.take i).map List.length).sum

theorem packedOffset_zero (datas : List (List Nat)) : packedOffset datas 0 = 0 := rfl

theorem packedOffset_succ (datas : List (List Nat)) (i : Nat) (d : List Nat)
    (h : datas[i]? = some d) :
    packedOffset datas (i + 1) = packedOffset datas i + d.length := by
  induction datas generalizing i with
  | nil => simp at h
  | cons d0 ds ih =>
    cases i with
    | zero =>
      simp only [List.getElem?_cons_zero, Option.some.injEq] at h
      subst h
      simp [packedOffset]
    | succ i =>
      simp only [List.getElem?_cons_succ] at h
      have := ih i h
      simp only [packedOffset, List.take_succ_cons, List.map_cons, List.sum_cons] at *
      omega

theorem length_ktxMipLevelTable (datas : List (List Nat)) :
    ∀ lvl off, (ktxMipLevelTable datas lvl off).length = datas.length := by
  induction datas with
  | nil => intro lvl off; rfl
  | cons d ds ih =>
    intro lvl off
    simp [ktxMipLevelTable, ih]

theorem ktxMipLevelTable_getElem? (datas : List (List Nat)) :
    ∀ (lvl off i : Nat) (d : List Nat), datas[i]? = some d →
      (ktxMipLevelTable datas lvl off)[i]?
        = some { level := lvl + i, offset := off + packedOffset datas i, size := d.length } := by
  induction datas with
  | nil => intro lvl off i d h; simp at h
  | cons d0 ds ih =>
    intro lvl off i d h
    cases i with
    | zero =>
      simp only [List.getElem?_cons_zero, Option.some.injEq] at h
      subst h
      simp [ktxMipLevelTable, packedOffset]
    | succ i =>
      simp only [List.getElem?_cons_succ] at h
      have := ih (lvl + 1) (off + d0.length) i d h
      simp only [ktxMipLevelTable, List.getElem?_cons_succ]
      rw [this]
      have hoff : packedOffset (d0 :: ds) (i + 1) = d0.length + packedOffset ds i := by
        simp [packedOffset, List.take_succ_cons]
      rw [hoff]
      congr 2
      · omega
      · omega

theorem flatten_slice (datas : List (List Nat)) :
    ∀ (i : Nat) (d : List Nat), datas[i]? = some d →
      (datas.flatten.drop (packedOffset datas i)).take d.length = d := by
  induction datas with
  | nil => intro i d h; simp at h
  | cons d0 ds ih =>
    intro i d h
    cases i with
    | zero =>
      simp only [List.getElem?_cons_zero, Option.some.injEq] at h
      subst h
      simp only [packedOffset, List.take_zero, List.map_nil, List.sum_nil, List.drop_zero,
        List.flatten_cons]
      exact List.take_left _ _
    | succ i =>
      simp only [List.getElem?_cons_succ] at h
      have hoff : packedOffset (d0 :: ds) (i + 1) = d0.length + packedOffset ds i := by
        simp [packedOffset, List.take_succ_cons]
      rw [hoff, List.flatten_cons, ← List.drop_drop, List.drop_left]
      exact ih i d h

/-- C7: for every successfully transcoded sequence of per-level byte arrays,
the worker's mip-level table lists levels in ascending order packed
contiguously with no padding: the table entry for level `i` records level
index `i`, offset equal to the sum of the preceding sizes (so level 0 is at
offset 0 and each entry's offset is the previous offset plus its size), the
packed buffer's length is the sum of all level sizes, and re-slicing the
buffer at each entry's declared offset and size recovers exactly that
level's bytes. -/
theorem ktx_mip_table_contiguous_packing (datas : List (List Nat)) :
    (transcodeDataBuffer datas).length = totalTranscodeSize datas
    ∧ (ktxMipLevelTable datas 0 0).length = datas.length
    ∧ packedOffset datas 0 = 0
    ∧ (∀ (i : Nat) (d : List Nat), datas[i]? = some d →
        (ktxMipLevelTable datas 0 0)[i]?
            = some { level := i, offset := packedOffset datas i, size := d.length }
        ∧ packedOffset datas (i + 1) = packedOffset datas i + d.length
        ∧ ((transcodeDataBuffer datas).drop (packedOffset datas i)).take d.length = d) := by
  refine ⟨?_, length_ktxMipLevelTable datas 0 0, packedOffset_zero datas, ?_⟩
  · rw [transcodeDataBuffer_eq_flatten]
    simp [totalTranscodeSize, List.length_flatten]
  · intro i d h
    refine ⟨?_, packedOffset_succ datas i d h, ?_⟩
    · have := ktxMipLevelTable_getElem? datas 0 0 i d h
      simpa using this
    · rw [transcodeDataBuffer_eq_flatten]
      exact flatten_slice datas i d h

/-- Witness for `ktx_mip_table_contiguous_packing` at three concrete levels
of sizes 3, 2 and 1. -/
theorem ktx_mip_table_contiguous_packing_witness :
    (ktxMipLevelTable [[7, 8, 9], [4, 5], [6]] 0 0)[1]?
        = some { level := 1, offset := packedOffset [[7, 8, 9], [4, 5], [6]] 1, size := 2 }
    ∧ packedOffset [[7, 8, 9], [4, 5], [6]] 2 = packedOffset [[7, 8, 9], [4, 5], [6]] 1 + 2
    ∧ ((transcodeDataBuffer [[7, 8, 9], [4, 5], [6]]).drop
          (packedOffset [[7, 8, 9], [4, 5], [6]] 1)).take 2 = [4, 5] :=
  (ktx_mip_table_contiguous_packing [[7, 8, 9], [4, 5], [6]]).2.2.2 1 [4, 5] rfl

/-! ## Worker-loader coordinator (`worker-loader.js`)

Module state: the `pendingTextures` map (id → `PendingTextureRequest`) and
the `nextPendingTextureId` counter starting at 1. `loadTextureFromUrl` posts
`{id, url, supportedFormats, mipmaps}` and registers the pending entry;
`onWorkerMessage` looks the response id up, logs and drops unknown ids,
otherwise deletes the entry and rejects (error string) or resolves
(`finishTexture` of the request's client/options and the message payload).
Requests and responses are opaque `Nat` tokens here. -/

/-- The worker-loader module state: `pendingTextures` (association list,
ids unique because they come from the counter) and `nextPendingTextureId`. -/
structure WorkerLoaderState where
  pendingTextures : List (Nat × Nat)
  nextPendingTextureId : Nat
deriving DecidableEq

/-- A worker response message: `{id, error?, ...payload}`. -/
structure WorkerMsgData where
  id : Nat
  error : Option String
  payload : Nat
deriving DecidableEq

/-- Observable outcome of one `onWorkerMessage` call: the pending promise
resolved with `finishTexture(request, payload)` (modelled as the pair),
rejected with the error string, or the message dropped after the
`Invalid pending texture ID` log. -/
inductive WorkerAction where
  | resolved : Nat → Nat × Nat → WorkerAction
  | rejected : Nat → String → WorkerAction
  | droppedInvalid : Nat → WorkerAction
deriving DecidableEq

/-- `WorkerLoader.loadTextureFromUrl`: take the next id, post the request,
register the pending entry; returns the new state and the id used. -/
def workerLoadTextureFromUrl (s : WorkerLoaderState) (request : Nat) :
    WorkerLoaderState × Nat :=
  let id := s.nextPendingTextureId
  ({ pendingTextures := s.pendingTextures ++ [(id, request)],
     nextPendingTextureId := id + 1 }, id)

/-- `onWorkerMessage`: resolve the response by id, never by arrival order. -/
def onWorkerMessage (s : WorkerLoaderState) (msg : WorkerMsgData) :
    WorkerLoaderState × WorkerAction :=
  match s.pendingTextures.lookup msg.id with
  | none => (s, .droppedInvalid msg.id)
  | some request =>
    let s' : WorkerLoaderState :=
      { s with pendingTextures := s.pendingTextures.filter (fun e => e.1 != msg.id) }
    match msg.error with
    | some err => (s', .rejected msg.id err)
    | none => (s', .resolved msg.id (request, msg.payload))

/-- Deliver a list of worker responses in order, collecting the actions. -/
def processMessages (s : WorkerLoaderState) (msgs : List WorkerMsgData) :
    WorkerLoaderState × List WorkerAction :=
  msgs.foldl
    (fun acc m =>
      let r := onWorkerMessage acc.1 m
      (r.1, acc.2 ++ [r.2]))
    (s, [])

theorem lookup_none_filter_eq (l : List (Nat × Nat)) (a : Nat)
    (h : l.lookup a = none) : l.filter (fun e => e.1 != a) = l := by
  induction l with
  | nil => rfl
  | cons e l ih =>
    rw [List.lookup] at h
    cases hae : a == e.1 with
    | true => rw [hae] at h; exact absurd h (by simp)
    | false =>
      rw [hae] at h
      simp only [List.filter_cons]
      have hne : (e.1 != a) = true := by
        simp only [bne_iff_ne, ne_eq]
        intro hc
        rw [hc] at hae
        simp at hae
      rw [if_pos hne, ih h]

theorem onWorkerMessage_pending (s : WorkerLoaderState) (msg : WorkerMsgData) :
    (onWorkerMessage s msg).1.pendingTextures
      = s.pendingTextures.filter (fun e => e.1 != msg.id) := by
  unfold onWorkerMessage
  cases hl : s.pendingTextures.lookup msg.id with
  | none => simpa using (lookup_none_filter_eq _ _ hl).symm
  | some request => cases msg.error <;> rfl

theorem onWorkerMessage_next (s : WorkerLoaderState) (msg : WorkerMsgData) :
    (onWorkerMessage s msg).1.nextPendingTextureId = s.nextPendingTextureId := by
  unfold onWorkerMessage
  cases s.pendingTextures.lookup msg.id with
  | none => rfl
  | some request => cases msg.error <;> rfl

theorem processMessages_go (msgs : List WorkerMsgData) :
    ∀ (s : WorkerLoaderState) (acc : List WorkerAction),
      (msgs.foldl
        (fun acc m =>
          let r := onWorkerMessage acc.1 m
          (r.1, acc.2 ++ [r.2]))
        (s, acc)).1.pendingTextures
      = s.pendingTextures.filter
          (fun e => (msgs.map WorkerMsgData.id).all (fun i => e.1 != i)) := by
  induction msgs with
  | nil => intro s acc; simp
  | cons m ms ih =>
    intro s acc
    rw [List.foldl_cons]
    rw [ih ((onWorkerMessage s m).1) (acc ++ [(onWorkerMessage s m).2])]
    rw [onWorkerMessage_pending, List.filter_filter]
    refine List.filter_congr ?_
    intro e _
    simp only [List.map_cons, List.all_cons]
    rw [Bool.and_comm]

theorem processMessages_pending (s : WorkerLoaderState) (msgs : List WorkerMsgData) :
    (processMessages s msgs).1.pendingTextures
      = s.pendingTextures.filter
          (fun e => (msgs.map WorkerMsgData.id).all (fun i => e.1 != i)) :=
  processMessages_go msgs s []

/-- C6: the coordinator resolves responses by id, not arrival order. A
response whose id has a pending entry removes exactly that entry and
resolves (or, when the message carries an error string, rejects with that
string) that request; a response with no matching entry leaves the state
unchanged and is dropped (the handler returns normally); after responses
covering every pending id have been delivered — in any order — the
outstanding map is empty. The two-request out-of-order scenario (ids 1 and
2, response 2 first) resolves each to its own matching result and ends with
an empty map. -/
theorem worker_responses_resolved_by_id :
    (∀ (s : WorkerLoaderState) (msg : WorkerMsgData),
      s.pendingTextures.lookup msg.id = none →
      onWorkerMessage s msg = (s, .droppedInvalid msg.id))
    ∧ (∀ (s : WorkerLoaderState) (msg : WorkerMsgData) (request : Nat),
      s.pendingTextures.lookup msg.id = some request →
      (onWorkerMessage s msg).1.pendingTextures
          = s.pendingTextures.filter (fun e => e.1 != msg.id)
      ∧ (∀ err, msg.error = some err →
          (onWorkerMessage s msg).2 = .rejected msg.id err)
      ∧ (msg.error = none →
          (onWorkerMessage s msg).2 = .resolved msg.id (request, msg.payload)))
    ∧ (∀ (s : WorkerLoaderState) (msgs : List WorkerMsgData),
      (∀ e ∈ s.pendingTextures, e.1 ∈ msgs.map WorkerMsgData.id) →
      (processMessages s msgs).1.pendingTextures = [])
    ∧ (let s0 : WorkerLoaderState := { pendingTextures := [], nextPendingTextureId := 1 }
       let r1 := workerLoadTextureFromUrl s0 10
       let r2 := workerLoadTextureFromUrl r1.1 20
       let answered := processMessages r2.1 [⟨2, none, 200⟩, ⟨1, none, 100⟩]
       r1.2 = 1 ∧ r2.2 = 2
       ∧ answered.2 = [.resolved 2 (20, 200), .resolved 1 (10, 100)]
       ∧ answered.1.pendingTextures = []) := by
  refine ⟨?_, ?_, ?_, ?_⟩
  · intro s msg h
    unfold onWorkerMessage
    rw [h]
  · intro s msg request h
    refine ⟨onWorkerMessage_pending s msg, ?_, ?_⟩
    · intro err herr
      unfold onWorkerMessage
      rw [h, herr]
    · intro herr
      unfold onWorkerMessage
      rw [h, herr]
  · intro s msgs hall
    rw [processMessages_pending]
    refine List.filter_eq_nil_iff.mpr ?_
    intro e he
    have hmem := hall e he
    intro hcon
    have := List.all_eq_true.mp hcon e.1 hmem
    simp at this
  · decide

/-- Witness for `worker_responses_resolved_by_id`: the unknown-id response 5
against an empty map is dropped, and a pending entry (id 3) is removed and
resolved when its response arrives. -/
theorem worker_responses_resolved_by_id_witness :
    onWorkerMessage { pendingTextures := [], nextPendingTextureId := 1 } ⟨5, none, 0⟩
        = ({ pendingTextures := [], nextPendingTextureId := 1 }, .droppedInvalid 5)
    ∧ (onWorkerMessage { pendingTextures := [(3, 30)], nextPendingTextureId := 4 }
          ⟨3, none, 7⟩).2 = .resolved 3 (30, 7) :=
  ⟨worker_responses_resolved_by_id.1
      { pendingTextures := [], nextPendingTextureId := 1 } ⟨5, none, 0⟩ rfl,
   (worker_responses_resolved_by_id.2.1
      { pendingTextures := [(3, 30)], nextPendingTextureId := 4 } ⟨3, none, 7⟩ 30 rfl).2.2 rfl⟩

/-! ## Base tool lifecycle (`web-texture-tool-base.js`)

`WebTextureTool.destroy()` checks `this[CLIENT]`, calls the client's
`destroy()` (which only nulls its GPU handle) and sets `this[CLIENT] = null`.
The block that would shut down the per-extension loaders is commented out in
the source (marked `Doesn't work`), and `WorkerLoader` defines no `destroy`,
so the worker-loader module state (`pendingTextures`) and the started
workers are untouched. `loadTextureFromUrl` and `createTextureFromColor`
both start with `if (!this[CLIENT]) throw new Error('Cannot create new
textures after object has been destroyed.')`. -/

/-- Combined observable state: the tool's client slot, the worker-loader
module state, and whether the background worker is alive. -/
structure ToolState where
  clientAlive : Bool
  loader : WorkerLoaderState
  workerAlive : Bool
deriving DecidableEq

/-- `WebTextureTool.destroy()`: returns the new state and whether
`client.destroy()` was invoked on this call. -/
def toolDestroy (s : ToolState) : ToolState × Bool :=
  if s.clientAlive then ({ s with clientAlive := false }, true)
  else (s, false)

/-- The destroyed-tool guard at the top of `loadTextureFromUrl`. -/
def loadTextureFromUrlGuard (s : ToolState) : Except String Unit :=
  if !s.clientAlive then
    .error "Cannot create new textures after object has been destroyed."
  else .ok ()

/-- The destroyed-tool guard at the top of `createTextureFromColor`. -/
def createTextureFromColorGuard (s : ToolState) : Except String Unit :=
  if !s.clientAlive then
    .error "Cannot create new textures after object has been destroyed."
  else .ok ()

/-- C2: the claim is false on the code; this theorem evaluates `destroy()` on
an arbitrary state (in particular one with outstanding requests): the
worker-loader's pending map and the worker's liveness are unchanged — no
outstanding request is rejected and no worker is terminated — because the
loader-shutdown block in `destroy()` is commented out and `WorkerLoader`
has no `destroy` method. Only the client reference is cleared. -/
theorem tool_destroy_leaves_requests_pending (s : ToolState) :
    (toolDestroy s).1.loader = s.loader
    ∧ (toolDestroy s).1.workerAlive = s.workerAlive
    ∧ (toolDestroy s).1.clientAlive = false := by
  unfold toolDestroy
  by_cases h : s.clientAlive <;> simp [h]

/-- C9: after `destroy()` the client reference is cleared, every subsequent
`loadTextureFromUrl` or `createTextureFromColor` call throws
`'Cannot create new textures after object has been destroyed.'`, a second
`destroy()` is a no-op that does not invoke `client.destroy()` again, and
`client.destroy()` is invoked on the first call exactly when a client was
present. -/
theorem tool_destroyed_guards_and_idempotence (s : ToolState) :
    (toolDestroy s).1.clientAlive = false
    ∧ (toolDestroy s).2 = s.clientAlive
    ∧ loadTextureFromUrlGuard (toolDestroy s).1
        = .error "Cannot create new textures after object has been destroyed."
    ∧ createTextureFromColorGuard (toolDestroy s).1
        = .error "Cannot create new textures after object has been destroyed."
    ∧ toolDestroy (toolDestroy s).1 = ((toolDestroy s).1, false) := by
  unfold toolDestroy loadTextureFromUrlGuard createTextureFromColorGuard
  by_cases h : s.clientAlive <;> simp [h]

/-! ## WebGL upload client (`webgl-texture-tool.js`)

`GL_FORMAT_MAP` maps format strings to GL parameters; here we keep the
flags the control flow depends on. `textureFromImageBitmap` disables
mipmaps on WebGL 1 for non-power-of-two sources, rejects compressed
formats, and — on the WebGL 1 upload path — references the undeclared
variable `glType` (line 183), which raises a `ReferenceError` before any
result is built. `textureFromLevelData` forces `generateMipmaps = false`
for compressed formats; its non-`texStorage` compressed upload path
references the undeclared loop variable `i` (line 270). Thrown exceptions
(including the `ReferenceError`s from the undeclared variables) are
modelled as `Except.error` strings. -/

/-- The flags of one `GL_FORMAT_MAP` entry that drive control flow. -/
structure GlFormatInfo where
  compressed : Bool := false
  texStorage : Bool := false
deriving DecidableEq

/-- `GL_FORMAT_MAP` from `webgl-texture-tool.js` (flags only). -/
def GL_FORMAT_MAP : String → Option GlFormatInfo
  | "rgb8unorm" => some {}
  | "rgba8unorm" => some {}
  | "rgb565unorm" => some {}
  | "rgba4unorm" => some {}
  | "bc1-rgb-unorm" => some { compressed := true, texStorage := true }
  | "bc3-rgba-unorm" => some { compressed := true, texStorage := false }
  | "bc7-rgba-unorm" => some { compressed := true, texStorage := true }
  | "etc1-rgb-unorm" => some { compressed := true, texStorage := false }
  | "etc2-rgba8unorm" => some { compressed := true, texStorage := true }
  | "astc-4x4-rgba-unorm" => some { compressed := true, texStorage := true }
  | "pvrtc1-4bpp-rgb-unorm" => some { compressed := true, texStorage := false }
  | "pvrtc1-4bpp-rgba-unorm" => some { compressed := true, texStorage := false }
  | _ => none

/-- `isPowerOfTwo(n)`: `(n & (n - 1)) === 0` (with `Nat` subtraction, which
matches the JS result for the 32-bit range used here, including `n = 0`). -/
def isPowerOfTwo (n : Nat) : Bool := n &&& (n - 1) == 0

/-- `calculateMipLevels(width, height) =
Math.floor(Math.log2(Math.max(width, height))) + 1`. -/
def calculateMipLevels (width height : Nat) : Nat :=
  Nat.log2 (max width height) + 1

/-- Lines 166-168: on WebGL 1 a mipmap request survives only for
power-of-two sources. -/
def webglAdjustedGenerateMipmaps (isWebGL2 : Bool) (w h : Nat)
    (generateMipmaps : Bool) : Bool :=
  if !isWebGL2 && generateMipmaps then isPowerOfTwo w && isPowerOfTwo h
  else generateMipmaps

/-- Result of a successful `textureFromImageBitmap` call (WebGL). -/
structure WebGLBitmapResult where
  width : Nat
  height : Nat
  depth : Nat
  mipLevels : Nat
  format : String
  genMipmapCalled : Bool
deriving DecidableEq

/-- `WebGLTextureClient.textureFromImageBitmap` (also the body of
`textureFromImageElement`, which delegates to it). -/
def webglTextureFromImageBitmap (isWebGL2 : Bool) (w h : Nat) (format : String)
    (generateMipmaps : Bool) : Except String WebGLBitmapResult :=
  let gm := webglAdjustedGenerateMipmaps isWebGL2 w h generateMipmaps
  let mipLevels := if gm then calculateMipLevels w h else 1
  match GL_FORMAT_MAP format with
  | none => .error ("No matching WebGL format for \"" ++ format ++ "\"")
  | some glFormat =>
    if glFormat.compressed then
      .error ("Cannot create texture from image with compressed format \"" ++ format ++ "\"")
    else if isWebGL2 then
      .ok { width := w, height := h, depth := 1, mipLevels := mipLevels,
            format := format, genMipmapCalled := decide (mipLevels > 1) }
    else
      -- line 183 uses the undeclared `glType`, so the WebGL 1 upload throws
      .error "ReferenceError: glType is not defined"

/-- A mip level as handed to `textureFromLevelData`:
`{level, width, height, offset, size}`. -/
structure MipLevelIn where
  level : Nat
  width : Nat
  height : Nat
  offset : Nat
  size : Nat
deriving DecidableEq

/-- Result of a successful `textureFromLevelData` call (WebGL): the parts of
the control flow the claims are about. -/
structure WebGLLevelDataResult where
  mipLevelCount : Nat
  genMipmapCalled : Bool
  usedTexStorage : Bool
deriving DecidableEq

/-- `WebGLTextureClient.textureFromLevelData` (mipmap/upload control flow). -/
def webglTextureFromLevelData (isWebGL2 : Bool) (mipLevels : List MipLevelIn)
    (format : String) (generateMipmaps : Bool) :
    Except String WebGLLevelDataResult :=
  match GL_FORMAT_MAP format with
  | none => .error ("No matching WebGL format for \"" ++ format ++ "\"")
  | some glFormat =>
    match mipLevels with
    | [] => .error "TypeError: mipLevels[0] is undefined"
    | top :: rest =>
      -- line 235 assigns to the `const topLevel` binding
      if (top :: rest).any (fun ml => decide (ml.level < top.level)) then
        .error "TypeError: Assignment to constant variable."
      else
        let gm1 := if glFormat.compressed then false else generateMipmaps
        let gm2 := webglAdjustedGenerateMipmaps isWebGL2 top.width top.height gm1
        let mipLevelCount :=
          if (top :: rest).length > 1 then (top :: rest).length
          else if gm2 then calculateMipLevels top.width top.height else 1
        let useTexStorage := isWebGL2 && (!glFormat.compressed || glFormat.texStorage)
        -- line 270 uses the undeclared `i` on the compressed non-texStorage path
        if glFormat.compressed && !useTexStorage then
          .error "ReferenceError: i is not defined"
        else
          .ok { mipLevelCount := mipLevelCount,
                genMipmapCalled := gm2 && (top :: rest).length == 1,
                usedTexStorage := useTexStorage }

/-! ## WebGPU upload client (staged-copy variant)

`FORMAT_BLOCK_SIZE` is the WebGPU client's capability record.
`textureFromImageBitmap` allocates a texture with
`mipLevelCount = generateMipmaps ? calculateMipLevels(w, h) : 1` and — with
no format validation of any kind — returns
`new WebTextureResult(texture, w, h, 1, 1, format)`, whose fifth argument
(the result's `mipLevels`) is the literal 1. `textureFromLevelData` plans
the staged copy per mip level: unpadded bytes per block row, 256-byte row
alignment, block row count, a fast contiguous path when the padding is a
no-op or there is one row, and copy extents rounded up to the block size. -/

/-- One `FORMAT_BLOCK_SIZE` entry. -/
structure FormatBlockSize where
  byteLength : Nat
  width : Nat
  height : Nat
  canGenerateMipmaps : Bool := false
deriving DecidableEq

/-- `FORMAT_BLOCK_SIZE` from the WebGPU client. -/
def FORMAT_BLOCK_SIZE : String → Option FormatBlockSize
  | "rgba8unorm" => some { byteLength := 4, width := 1, height := 1, canGenerateMipmaps := true }
  | "bc1-rgba-unorm" => some { byteLength := 8, width := 4, height := 4 }
  | "bc2-rgba-unorm" => some { byteLength := 16, width := 4, height := 4 }
  | "bc3-rgba-unorm" => some { byteLength := 16, width := 4, height := 4 }
  | "bc7-rgba-unorm" => some { byteLength := 16, width := 4, height := 4 }
  | _ => none

/-- The texture allocation descriptor passed to `device.createTexture`. -/
structure GpuTextureDescriptor where
  width : Nat
  height : Nat
  depth : Nat
  format : String
  mipLevelCount : Nat
deriving DecidableEq

/-- The `WebTextureResult` record returned to the caller. -/
structure WebTextureResultRec where
  width : Nat
  height : Nat
  depth : Nat
  mipLevels : Nat
  format : String
deriving DecidableEq

/-- `WebGPUTextureClient.textureFromImageBitmap`: allocation descriptor and
returned result (`none` models the `if (!this.device) return null` path). -/
def gpuTextureFromImageBitmap (deviceAlive : Bool) (w h : Nat) (format : String)
    (generateMipmaps : Bool) :
    Option (GpuTextureDescriptor × WebTextureResultRec) :=
  if !deviceAlive then none
  else
    let mipLevelCount := if generateMipmaps then calculateMipLevels w h else 1
    some ({ width := w, height := h, depth := 1, format := format,
            mipLevelCount := mipLevelCount },
          { width := w, height := h, depth := 1, mipLevels := 1, format := format })

/-- The per-level transfer layout record `levelCopyRanges[mipLevel.level]`
computed by `textureFromLevelData`. -/
structure LevelCopyRange where
  bytesPerImageRow : Nat
  blockRows : Nat
  bytesPerRow : Nat
  canFastCopy : Bool
  textureDataOffset : Nat
  textureDataSize : Nat
deriving DecidableEq

/-- Lines 252-270 of the WebGPU client: transfer layout for one mip level
(`runningOffset` is the `textureBufferSize` accumulated so far). -/
def levelCopyRange (blockSize : FormatBlockSize) (ml : MipLevelIn)
    (runningOffset : Nat) : LevelCopyRange :=
  let bytesPerImageRow := jsCeilDiv ml.width blockSize.width * blockSize.byteLength
  let blockRows := jsCeilDiv ml.height blockSize.height
  let bytesPerRow := jsCeilDiv bytesPerImageRow 256 * 256
  { bytesPerImageRow := bytesPerImageRow,
    blockRows := blockRows,
    bytesPerRow := bytesPerRow,
    canFastCopy := bytesPerRow == bytesPerImageRow || blockRows == 1,
    textureDataOffset := runningOffset,
    textureDataSize := max ml.size (bytesPerRow * blockRows) }

/-- The copy extent handed to `copyBufferToTexture`: width and height
rounded up to multiples of the block size (lines 314-317). -/
def gpuCopyExtent (blockSize : FormatBlockSize) (ml : MipLevelIn) : Nat × Nat :=
  (jsCeilDiv ml.width blockSize.width * blockSize.width,
   jsCeilDiv ml.height blockSize.height * blockSize.height)

/-- Fast path (line 289): one contiguous `set` of the level's bytes into the
zero-initialized staging region of the level. -/
def fastCopyLevel (r : LevelCopyRange) (data : List Nat) : List Nat :=
  writeBytes (List.replicate r.textureDataSize 0) 0 data

/-- Slow path (lines 300-304): copy row by row, each block row of
`bytesPerImageRow` bytes placed at stride `bytesPerRow`. -/
def slowCopyLevel (r : LevelCopyRange) (data : List Nat) : List Nat :=
  (List.range r.blockRows).foldl
    (fun buf i =>
      writeBytes buf (r.bytesPerRow * i)
        ((data.drop (r.bytesPerImageRow * i)).take r.bytesPerImageRow))
    (List.replicate r.textureDataSize 0)

theorem fastCopyLevel_eq (r : LevelCopyRange) (data : List Nat)
    (_h : data.length ≤ r.textureDataSize) :
    fastCopyLevel r data = data ++ List.replicate (r.textureDataSize - data.length) 0 := by
  unfold fastCopyLevel writeBytes
  simp [List.drop_replicate]

theorem foldl_writeRows_aux (data : List Nat) (bpir rows L : Nat)
    (hd : data.length = rows * bpir) (hL : rows * bpir ≤ L) :
    ∀ k, k ≤ rows →
      (List.range k).foldl
        (fun buf i => writeBytes buf (bpir * i) ((data.drop (bpir * i)).take bpir))
        (List.replicate L 0)
      = data.take (bpir * k) ++ List.replicate (L - bpir * k) 0 := by
  intro k
  induction k with
  | zero => intro _; simp
  | succ k ih =>
    intro hk
    have hk' : k ≤ rows := Nat.le_of_succ_le hk
    have hms : bpir * (k + 1) = bpir * k + bpir := by ring
    have hbk : bpir * (k + 1) ≤ data.length := by
      rw [hd, Nat.mul_comm rows bpir]
      exact Nat.mul_le_mul_left bpir hk
    rw [List.range_succ, List.foldl_append, ih hk']
    simp only [List.foldl_cons, List.foldl_nil]
    have hA : (data.take (bpir * k)).length = bpir * k := by
      rw [List.length_take]
      omega
    have hchunk : ((data.drop (bpir * k)).take bpir).length = bpir := by
      rw [List.length_take, List.length_drop]
      omega
    unfold writeBytes
    rw [hchunk]
    have htake : (data.take (bpir * k) ++ List.replicate (L - bpir * k) 0).take (bpir * k)
        = data.take (bpir * k) := List.take_left' hA
    have hdrop : (data.take (bpir * k) ++ List.replicate (L - bpir * k) 0).drop (bpir * k + bpir)
        = List.replicate (L - bpir * (k + 1)) 0 := by
      have h1 : (data.take (bpir * k) ++ List.replicate (L - bpir * k) 0).drop (bpir * k)
          = List.replicate (L - bpir * k) 0 := List.drop_left' hA
      calc (data.take (bpir * k) ++ List.replicate (L - bpir * k) 0).drop (bpir * k + bpir)
          = ((data.take (bpir * k) ++ List.replicate (L - bpir * k) 0).drop (bpir * k)).drop bpir := by
            rw [List.drop_drop]
        _ = (List.replicate (L - bpir * k) 0).drop bpir := by rw [h1]
        _ = List.replicate (L - bpir * (k + 1)) 0 := by
            rw [List.drop_replicate]
            congr 1
            omega
    rw [htake, hdrop]
    have hadd : data.take (bpir * k) ++ (data.drop (bpir * k)).take bpir
        = data.take (bpir * (k + 1)) := by
      rw [Nat.mul_succ, List.take_add]
    rw [List.append_assoc, ← List.append_assoc (data.take (bpir * k)), hadd]

theorem foldl_writeRows (data : List Nat) (bpir rows L : Nat)
    (hd : data.length = rows * bpir) (hL : rows * bpir ≤ L) :
    (List.range rows).foldl
      (fun buf i => writeBytes buf (bpir * i) ((data.drop (bpir * i)).take bpir))
      (List.replicate L 0)
    = data ++ List.replicate (L - data.length) 0 := by
  rw [foldl_writeRows_aux data bpir rows L hd hL rows (le_refl rows)]
  have : data.take (bpir * rows) = data := by
    apply List.take_of_length_le
    rw [hd, Nat.mul_comm]
  rw [this, hd, Nat.mul_comm rows bpir]

theorem fast_slow_copy_eq (r : LevelCopyRange) (data : List Nat)
    (hlen : data.length = r.blockRows * r.bytesPerImageRow)
    (hsz : data.length ≤ r.textureDataSize)
    (hflag : r.bytesPerRow = r.bytesPerImageRow ∨ r.blockRows = 1) :
    fastCopyLevel r data = slowCopyLevel r data := by
  rcases hflag with heq | hone
  · unfold slowCopyLevel
    rw [heq]
    rw [foldl_writeRows data r.bytesPerImageRow r.blockRows r.textureDataSize hlen
      (by omega)]
    rw [fastCopyLevel_eq r data hsz]
  · unfold slowCopyLevel
    rw [hone]
    have hlen1 : data.length = r.bytesPerImageRow := by
      rw [hlen, hone, Nat.one_mul]
    simp only [List.range_succ, List.range_zero, List.nil_append, List.foldl_cons,
      List.foldl_nil, Nat.mul_zero, List.drop_zero]
    have : data.take r.bytesPerImageRow = data := by
      apply List.take_of_length_le
      omega
    rw [this]
    rfl

/-- C3: for every format registered in `FORMAT_BLOCK_SIZE` and every mip
level, the staged-copy transfer layout sets
`unpaddedBytesPerRow = ceil(width / blockWidth) * blockBytes`,
`bytesPerRow = ceil(unpaddedBytesPerRow / 256) * 256`,
`rowCount = ceil(height / blockHeight)`, marks the level fast-path eligible
exactly when the padded row pitch equals the unpadded one or there is a
single block row — and in that case the single contiguous copy produces the
same staging bytes as the row-by-row loop — and the copy extents passed to
`copyBufferToTexture` are the width and height rounded up to multiples of
the block dimensions. -/
theorem gpu_transfer_layout_spec (fmt : String) (bs : FormatBlockSize)
    (_hfmt : FORMAT_BLOCK_SIZE fmt = some bs) (ml : MipLevelIn) (off : Nat) :
    (levelCopyRange bs ml off).bytesPerImageRow
        = (ml.width + bs.width - 1) / bs.width * bs.byteLength
    ∧ (levelCopyRange bs ml off).bytesPerRow
        = ((levelCopyRange bs ml off).bytesPerImageRow + 255) / 256 * 256
    ∧ (levelCopyRange bs ml off).blockRows = (ml.height + bs.height - 1) / bs.height
    ∧ ((levelCopyRange bs ml off).canFastCopy = true ↔
        ((levelCopyRange bs ml off).bytesPerRow
            = (levelCopyRange bs ml off).bytesPerImageRow
          ∨ (levelCopyRange bs ml off).blockRows = 1))
    ∧ gpuCopyExtent bs ml
        = ((ml.width + bs.width - 1) / bs.width * bs.width,
           (ml.height + bs.height - 1) / bs.height * bs.height)
    ∧ (∀ data : List Nat, data.length = ml.size →
        ml.size = (levelCopyRange bs ml off).blockRows
            * (levelCopyRange bs ml off).bytesPerImageRow →
        (levelCopyRange bs ml off).canFastCopy = true →
        fastCopyLevel (levelCopyRange bs ml off) data
          = slowCopyLevel (levelCopyRange bs ml off) data) := by
  refine ⟨rfl, ?_, rfl, ?_, rfl, ?_⟩
  · show jsCeilDiv (jsCeilDiv ml.width bs.width * bs.byteLength) 256 * 256
        = (jsCeilDiv ml.width bs.width * bs.byteLength + 255) / 256 * 256
    unfold jsCeilDiv
    norm_num
  · show ((jsCeilDiv (jsCeilDiv ml.width bs.width * bs.byteLength) 256 * 256
        == jsCeilDiv ml.width bs.width * bs.byteLength)
        || (jsCeilDiv ml.height bs.height == 1)) = true ↔ _
    simp [levelCopyRange]
  · intro data hdata hsize hfast
    have hflag : (levelCopyRange bs ml off).bytesPerRow
          = (levelCopyRange bs ml off).bytesPerImageRow
        ∨ (levelCopyRange bs ml off).blockRows = 1 := by
      have := hfast
      simp only [levelCopyRange, Bool.or_eq_true, beq_iff_eq] at this ⊢
      exact this
    refine fast_slow_copy_eq _ data ?_ ?_ hflag
    · rw [hdata, hsize]
    · rw [hdata]
      show ml.size ≤ max ml.size _
      exact le_max_left _ _

/-- Witness for `gpu_transfer_layout_spec` at `rgba8unorm`, a 4×1 level of
16 bytes: there is a single row, so the level is fast-path eligible (even
though 256-byte padding applies) and both copy paths agree. -/
theorem gpu_transfer_layout_spec_witness :
    fastCopyLevel
        (levelCopyRange { byteLength := 4, width := 1, height := 1, canGenerateMipmaps := true }
          { level := 0, width := 4, height := 1, offset := 0, size := 16 } 0)
        (List.replicate 16 7)
      = slowCopyLevel
        (levelCopyRange { byteLength := 4, width := 1, height := 1, canGenerateMipmaps := true }
          { level := 0, width := 4, height := 1, offset := 0, size := 16 } 0)
        (List.replicate 16 7) :=
  (gpu_transfer_layout_spec "rgba8unorm"
      { byteLength := 4, width := 1, height := 1, canGenerateMipmaps := true } rfl
      { level := 0, width := 4, height := 1, offset := 0, size := 16 } 0).2.2.2.2.2
    (List.replicate 16 7) (by decide) (by decide) (by decide)

theorem webglAdjustedGenerateMipmaps_false (isWebGL2 : Bool) (w h : Nat) :
    webglAdjustedGenerateMipmaps isWebGL2 w h false = false := by
  cases isWebGL2 <;> simp [webglAdjustedGenerateMipmaps]

/-- C5: the code is wrong where the claim (and the `WebTextureResult`
documentation) is right. `WebGPUTextureClient.textureFromImageBitmap`
allocates the texture with `mipLevelCount = floor(log2(max(w,h))) + 1` when
mipmaps are requested (else 1), but the returned `WebTextureResult` is
constructed with the literal `1` in its `mipLevels` slot, so a 256×256
source with mipmaps requested yields a texture allocated with 9 levels
whose result descriptor reports 1. -/
theorem gpu_bitmap_result_misreports_mip_count :
    (∀ (w h : Nat) (fmt : String) (gm : Bool),
      gpuTextureFromImageBitmap true w h fmt gm
        = some ({ width := w, height := h, depth := 1, format := fmt,
                  mipLevelCount := if gm then calculateMipLevels w h else 1 },
                { width := w, height := h, depth := 1, mipLevels := 1, format := fmt }))
    ∧ calculateMipLevels 256 256 = 9
    ∧ gpuTextureFromImageBitmap true 256 256 "rgba8unorm" true
        = some ({ width := 256, height := 256, depth := 1, format := "rgba8unorm",
                  mipLevelCount := 9 },
                { width := 256, height := 256, depth := 1, mipLevels := 1,
                  format := "rgba8unorm" }) := by
  have hlog : calculateMipLevels 256 256 = 9 := by
    unfold calculateMipLevels
    norm_num [Nat.log2]
  refine ⟨fun w h fmt gm => rfl, hlog, ?_⟩
  simp [gpuTextureFromImageBitmap, hlog]

/-- C8: the claim as stated is false on the code. The staged-copy (WebGPU)
upload client's `textureFromImageBitmap` performs no format validation at
all: requesting the compressed format `bc7-rgba-unorm` through the
pixel-source path succeeds and returns a result instead of failing. -/
theorem gpu_pixel_source_accepts_compressed_counterexample :
    gpuTextureFromImageBitmap true 4 4 "bc7-rgba-unorm" false
      = some ({ width := 4, height := 4, depth := 1, format := "bc7-rgba-unorm",
                mipLevelCount := 1 },
              { width := 4, height := 4, depth := 1, mipLevels := 1,
                format := "bc7-rgba-unorm" }) := rfl

/-- C8 (amended): in the immediate-mode (WebGL) client, requesting any
compressed pixel format through the pixel-source path
(`textureFromImageBitmap`, and `textureFromImageElement` which delegates to
it) fails with the descriptive error
`Cannot create texture from image with compressed format "<fmt>"` rather
than creating a texture; the staged-copy (WebGPU) client, however, performs
no compressed-format check on this path and always returns a result when
the device is alive. -/
theorem pixel_source_compressed_format_amended :
    (∀ (fmt : String) (glf : GlFormatInfo), GL_FORMAT_MAP fmt = some glf →
      glf.compressed = true →
      ∀ (isWebGL2 : Bool) (w h : Nat) (gm : Bool),
        webglTextureFromImageBitmap isWebGL2 w h fmt gm
          = .error ("Cannot create texture from image with compressed format \""
              ++ fmt ++ "\""))
    ∧ (∀ (w h : Nat) (fmt : String) (gm : Bool),
        (gpuTextureFromImageBitmap true w h fmt gm).isSome = true) := by
  constructor
  · intro fmt glf hmap hcomp isWebGL2 w h gm
    simp [webglTextureFromImageBitmap, hmap, hcomp]
  · intro w h fmt gm
    rfl

/-- Witness for `pixel_source_compressed_format_amended` at the compressed
format `etc1-rgb-unorm` on a WebGL 1 client. -/
theorem pixel_source_compressed_format_amended_witness :
    webglTextureFromImageBitmap false 8 8 "etc1-rgb-unorm" true
      = .error ("Cannot create texture from image with compressed format \""
          ++ "etc1-rgb-unorm" ++ "\"") :=
  pixel_source_compressed_format_amended.1 "etc1-rgb-unorm"
    { compressed := true, texStorage := false } rfl rfl false 8 8 true

/-- C10: the mipmap-disabling logic is as the claim says — on WebGL 1 the
effective mipmap request is the conjunction of the request with both
dimensions being powers of two, and level-data uploads of a compressed
format never call `generateMipmap` — but the WebGL 1 pixel-source upload
path references the undeclared variable `glType` (line 183), so instead of
returning a result with `mipLevels = 1` it throws a `ReferenceError` for
every WebGL 1 image upload, including the non-power-of-two 3×3 case. -/
theorem webgl1_mipmap_disable_and_undeclared_glType :
    (∀ (w h : Nat) (gm : Bool),
      webglAdjustedGenerateMipmaps false w h gm
        = (gm && (isPowerOfTwo w && isPowerOfTwo h)))
    ∧ (∀ (w h : Nat) (fmt : String) (glf : GlFormatInfo) (gm : Bool),
        GL_FORMAT_MAP fmt = some glf → glf.compressed = false →
        webglTextureFromImageBitmap false w h fmt gm
          = .error "ReferenceError: glType is not defined")
    ∧ (∀ (isWebGL2 : Bool) (levels : List MipLevelIn) (fmt : String)
        (glf : GlFormatInfo) (gm : Bool) (r : WebGLLevelDataResult),
        GL_FORMAT_MAP fmt = some glf → glf.compressed = true →
        webglTextureFromLevelData isWebGL2 levels fmt gm = .ok r →
        r.genMipmapCalled = false)
    ∧ webglTextureFromImageBitmap false 3 3 "rgba8unorm" true
        = .error "ReferenceError: glType is not defined" := by
  refine ⟨?_, ?_, ?_, ?_⟩
  · intro w h gm
    cases gm <;> simp [webglAdjustedGenerateMipmaps]
  · intro w h fmt glf gm hmap hcomp
    simp [webglTextureFromImageBitmap, hmap, hcomp]
  · intro isWebGL2 levels fmt glf gm r hmap hcomp hok
    simp only [webglTextureFromLevelData, hmap, hcomp,
      webglAdjustedGenerateMipmaps_false] at hok
    cases levels with
    | nil => simp at hok
    | cons top rest =>
      simp only [if_true, if_false, Bool.false_and] at hok
      split at hok
      · simp at hok
      · split at hok
        · simp at hok
        · simp only [Except.ok.injEq] at hok
          rw [← hok]
          simp [webglAdjustedGenerateMipmaps_false]
  · rfl

/-- Witness for `webgl1_mipmap_disable_and_undeclared_glType`: a WebGL 1
upload of an uncompressed (`rgb8unorm`) 5×7 image hits the undeclared
`glType` and throws. -/
theorem webgl1_mipmap_disable_and_undeclared_glType_witness :
    webglTextureFromImageBitmap false 5 7 "rgb8unorm" false
      = .error "ReferenceError: glType is not defined" :=
  webgl1_mipmap_disable_and_undeclared_glType.2.1 5 7 "rgb8unorm" {} false rfl rfl
